import Mathlib

/-!
Shallow embedding of the asynchronous logger core of `log/log.go`
(package `log` of the `util` repository), together with proofs of the
specification's claims about it.

Machine integers: Go's `LogLever` is an `int` used only as a small bit mask,
so we model it as `Nat` with `&&&` (bitwise AND) / `|||` (bitwise OR);
no arithmetic near an overflow boundary occurs anywhere in the embedded code.
Byte slices `[]byte` carrying rendered text are modelled as `String` for the
data together with an explicit capacity field (`GoSlice`), because the source
distinguishes a buffer's length (reset by the pool) from its capacity
(retained by the pool, 1024 for a fresh buffer).
-/

namespace GoLog

/-- `type LogLever int` — a bit-flag severity mask. -/
abbrev LogLever := Nat

/-- `LevelInfo LogLever = 1` -/
def LevelInfo : LogLever := 1

/-- `LevelDebug LogLever = 1 << 1` -/
def LevelDebug : LogLever := 2

/-- `LevelWarn LogLever = 1 << 2` -/
def LevelWarn : LogLever := 4

/-- `LevelError LogLever = 1 << 3` -/
def LevelError : LogLever := 8

/-- `LevelAll = LevelInfo | LevelDebug | LevelWarn | LevelError` -/
def LevelAll : LogLever := LevelInfo ||| LevelDebug ||| LevelWarn ||| LevelError

/-- `maxBufPoolSize = 16` -/
def maxBufPoolSize : Nat := 16

/-- Color escape constants used by the logger (`NONE`, `RED`, `GREEN`, `YELLOW`). -/
def NONE : String := "\x1b[m"

def RED : String := "\x1b[0;32;31m"

def GREEN : String := "\x1b[0;32;32m"

def YELLOW : String := "\x1b[1;33m"

/-- A Go byte slice as the logger uses it: its logical contents plus its
capacity.  `make([]byte, 0, 1024)` is `⟨"", 1024⟩`; `buf[0:0]` keeps the
capacity and empties the data. -/
structure GoSlice where
  data : String
  cap : Nat
deriving DecidableEq, Repr

/-- `levelName` (log.go:245-257): tests the Debug, Info, Warn, Error bits in
that order with bitwise AND; first match wins; no match gives `""`. -/
def levelName (level : LogLever) : String :=
  if level &&& LevelDebug = LevelDebug then "DEBUG"
  else if level &&& LevelInfo = LevelInfo then "INFO"
  else if level &&& LevelWarn = LevelWarn then "WARN"
  else if level &&& LevelError = LevelError then "ERROR"
  else ""

/-- `Logger.colorStart` (log.go:218-230).  The Go `switch` has an empty
`case LevelDebug:` body (no fallthrough in Go), so Debug reaches the final
`return ""` just like unmatched values. -/
def colorStart (level : LogLever) : String :=
  if level = LevelDebug then ""
  else if level = LevelInfo then GREEN
  else if level = LevelWarn then YELLOW
  else if level = LevelError then RED
  else ""

/-- `Logger.colorStop` (log.go:232-243): empty `case LevelDebug:` body, the
other three levels return `NONE`, default `""`. -/
def colorStop (level : LogLever) : String :=
  if level = LevelDebug then ""
  else if level = LevelInfo then NONE
  else if level = LevelWarn then NONE
  else if level = LevelError then NONE
  else ""

/-- The countdown loop of log.go:181-186:
`for i := len(file)-1; i > 0; i-- { if file[i] == '/' { file = file[i+1:]; break } }`.
The argument is the current loop index `i`; index `0` is never examined
because the loop condition is `i > 0`. -/
def stripDirAux (cs : List Char) : Nat → List Char
  | 0 => cs
  | i + 1 => if cs.get? (i + 1) = some '/' then cs.drop (i + 2) else stripDirAux cs i

/-- Reduction of the resolved absolute file path to its short name, as
performed inline in `Logger.Output` (log.go:181-186). -/
def shortFile (file : String) : String :=
  ⟨stripDirAux file.data (file.data.length - 1)⟩

/-- The `runtime.Caller` result in `Logger.Output` (log.go:176-187): `none`
models `ok == false`, in which case `file = "???"` and `line = 0`; otherwise
the file is shortened with the countdown loop. -/
def resolveCaller (caller : Option (String × Int)) : String × Int :=
  match caller with
  | none => ("???", 0)
  | some (f, l) => (shortFile f, l)

/-- The rendering part of `Logger.Output` (log.go:163-213): the byte sequence
appended to the popped buffer.  `now` is the already-formatted timestamp,
`caller` the `runtime.Caller` result, `s` the `fmt.Sprintf` result.  The final
`||` condition tests the last byte of `s` against `'\n'`; since `'\n'` is a
single-byte character, the last byte is `'\n'` exactly when the last character
is, so the `String.back` test is equivalent. -/
def renderRecord (ln : Bool) (now : String) (level : LogLever)
    (caller : Option (String × Int)) (s : String) : String :=
  let buf : String := ""
  let buf := if ln then buf ++ "\x1b[1A" else buf
  let buf := buf ++ now
  let buf := buf ++ " - "
  let buf := buf ++ colorStart level
  let buf := buf ++ levelName level
  let buf := buf ++ colorStop level
  let buf := buf ++ " - "
  let fl := resolveCaller caller
  let buf := buf ++ fl.1
  let buf := buf ++ ":["
  let buf := buf ++ toString fl.2
  let buf := buf ++ "] - "
  let buf := buf ++ s
  let buf := if ln then buf ++ "\x1b[K" else buf
  if s.length = 0 ∨ s.back ≠ '\n' then buf ++ "\n" else buf

/-- The pool-affecting part of `Logger.popBuf` (log.go:112-124): pop the last
buffer from the free list, or allocate a fresh `make([]byte, 0, 1024)` when
the list is empty (leaving the list as it was, i.e. empty). -/
def popBuf (bufs : List GoSlice) : GoSlice × List GoSlice :=
  match bufs.getLast? with
  | none => (⟨"", 1024⟩, bufs)
  | some b => (b, bufs.dropLast)

/-- `Logger.putBuf` (log.go:126-133): if fewer than `maxBufPoolSize` buffers
are held, truncate the buffer to length zero (`buf[0:0]` keeps its capacity)
and append it; otherwise drop it. -/
def putBuf (bufs : List GoSlice) (buf : GoSlice) : List GoSlice :=
  if bufs.length < maxBufPoolSize then bufs ++ [⟨"", buf.cap⟩] else bufs

/-- Which sink a `Handler` writes to.  The handler implementations live
outside the logging core; the core only ever distinguishes the stdout stream
handler (`newStdHandler`) from a time-rotating file handler. -/
inductive HandlerKind where
  | stdout : HandlerKind
  | rotatingFile : String → HandlerKind
deriving DecidableEq, Repr

/-- Sequential state of one `Logger` (log.go:45-61) together with the
observations the specification talks about: `writes` is the sequence of byte
records the Handler has received, `handlerCloseCount` / `quitCloseCount`
count how often `handler.Close()` / `close(l.quit)` ran, and `loopRunning`
records whether the background dispatch goroutine (`Logger.run`) is still
alive. -/
structure LoggerState where
  level : LogLever
  handlerKind : HandlerKind
  bufs : List GoSlice
  msg : List GoSlice
  closed : Bool
  loopRunning : Bool
  writes : List String
  handlerClosed : Bool
  handlerCloseCount : Nat
  quitCloseCount : Nat
deriving DecidableEq, Repr

/-- `New(handler)` (log.go:63-80): level `LevelInfo`, empty pool, empty
queue, not closed, dispatch loop started. -/
def New (k : HandlerKind) : LoggerState :=
  { level := LevelInfo
    handlerKind := k
    bufs := []
    msg := []
    closed := false
    loopRunning := true
    writes := []
    handlerClosed := false
    handlerCloseCount := 0
    quitCloseCount := 0 }

namespace Logger

/-- One iteration of the dispatch loop `Logger.run` (log.go:97-110) taking
the `msg` branch: write the buffer through the Handler, then return it to the
pool.  After the loop has exited (`loopRunning = false`) nothing happens. -/
def runStep (st : LoggerState) : LoggerState :=
  if st.loopRunning then
    match st.msg with
    | [] => st
    | m :: rest =>
      { st with msg := rest, writes := st.writes ++ [m.data], bufs := putBuf st.bufs m }
  else st

/-- The drain performed by `Logger.run` between `close(l.quit)` and loop
exit: the `quit` branch returns only once `len(l.msg) == 0`, so every buffer
already enqueued is still written through the Handler and returned to the
pool, in queue order. -/
def drainFrom (writes : List String) (bufs : List GoSlice) :
    List GoSlice → List String × List GoSlice
  | [] => (writes, bufs)
  | m :: rest => drainFrom (writes ++ [m.data]) (putBuf bufs m) rest

/-- `Logger.Output` (log.go:156-216).  `ln` is the line-overwrite flag,
`caller` the `runtime.Caller` outcome at the requested depth, `now` the
formatted wall-clock time, `s` the `fmt.Sprintf` result.  Filtered severities
return before touching the pool or the queue.  The enqueued slice's capacity
models Go's append guarantee `cap ≥ len` (its exact grown value is
implementation-defined and unobserved by the program). -/
def Output (st : LoggerState) (ln : Bool) (caller : Option (String × Int))
    (now : String) (level : LogLever) (s : String) : LoggerState :=
  if st.level &&& level ≠ level then st
  else
    let pb := popBuf st.bufs
    let rec0 := pb.1.data ++ renderRecord ln now level caller s
    { st with
      bufs := pb.2
      msg := st.msg ++ [⟨rec0, max pb.1.cap rec0.length⟩] }

/-- `Logger.Close` (log.go:135-146): no-op when already closed; otherwise
mark closed, close the quit channel, wait for the dispatch loop (which drains
the queue through the Handler and then exits), and close the Handler. -/
def Close (st : LoggerState) : LoggerState :=
  if st.closed then st
  else
    let d := drainFrom st.writes st.bufs st.msg
    { st with
      closed := true
      quitCloseCount := st.quitCloseCount + 1
      writes := d.1
      bufs := d.2
      msg := []
      loopRunning := false
      handlerClosed := true
      handlerCloseCount := st.handlerCloseCount + 1 }

/-- `Logger.Debug` (log.go:259-261): `Output(false, 2, LevelDebug, ...)`. -/
def Debug (st : LoggerState) (caller : Option (String × Int)) (now s : String) :
    LoggerState :=
  Output st false caller now LevelDebug s

/-- `Logger.Info` (log.go:263-265). -/
def Info (st : LoggerState) (caller : Option (String × Int)) (now s : String) :
    LoggerState :=
  Output st false caller now LevelInfo s

/-- `Logger.Warn` (log.go:267-269). -/
def Warn (st : LoggerState) (caller : Option (String × Int)) (now s : String) :
    LoggerState :=
  Output st false caller now LevelWarn s

/-- `Logger.Error` (log.go:271-273). -/
def Error (st : LoggerState) (caller : Option (String × Int)) (now s : String) :
    LoggerState :=
  Output st false caller now LevelError s

end Logger

/-- Process-wide state around the default logger (log.go:91, 279-300).
`retired` records the final states of default loggers that `SetLogFile`
replaced; in Go these objects become unreachable, the field only keeps them
observable for the specification. -/
structure GlobalState where
  defLoger : LoggerState
  retired : List LoggerState
deriving DecidableEq, Repr

/-- `SetLogFile` (log.go:279-300).  `rotOk` models whether
`NewTimeRotatingFileHandler(logFile, WhenDay, 1)` succeeds; that constructor
lives outside the provided sources, and only its success or failure is
observable here.  The previous default logger is closed first; on
construction failure the function prints the error and returns, so the closed
previous logger stays installed; `h == nil` (and hence the stdout fallback)
occurs exactly when `logFile` is empty. -/
def SetLogFile (g : GlobalState) (logFile : String) (rotOk : Bool) : GlobalState :=
  let old := Logger.Close g.defLoger
  if logFile.length ≠ 0 then
    if rotOk then
      { defLoger := New (HandlerKind.rotatingFile logFile), retired := g.retired ++ [old] }
    else
      { defLoger := old, retired := g.retired }
  else
    { defLoger := New HandlerKind.stdout, retired := g.retired ++ [old] }

/-- The invariant of the buffer free list: at most `maxBufPoolSize` buffers
held, each of length zero. -/
def PoolInv (bufs : List GoSlice) : Prop :=
  bufs.length ≤ maxBufPoolSize ∧ ∀ b ∈ bufs, b.data = ""

instance (bufs : List GoSlice) : Decidable (PoolInv bufs) := by
  unfold PoolInv; infer_instance

/-- The Handler-observed writes once the queue is fully drained: the writes
so far followed by the data of every queued buffer, in order. -/
def writesAfterDrain (st : LoggerState) : List String :=
  st.writes ++ st.msg.map GoSlice.data

/-- Rendering layout exactly as the specification words it, for comparison
with `renderRecord`: formatted timestamp, separator, colorized severity
label, separator, the call site as `file:[line]`, separator, message, and a
trailing newline exactly when the message is empty or does not end in a
newline character. -/
def renderSpec (now : String) (level : LogLever) (file : String) (line : Int)
    (s : String) : String :=
  now ++ " - " ++ (colorStart level ++ levelName level ++ colorStop level) ++ " - " ++
    file ++ ":[" ++ toString line ++ "] - " ++ s ++
    (if s.length = 0 ∨ s.back ≠ '\n' then "\n" else "")

/-- The specification's reading of call-site shortening: the substring after
the last `'/'` of the path. -/
def afterLastSlash (cs : List Char) : List Char :=
  ((cs.reverse.takeWhile fun c => c ≠ '/')).reverse

/-- Everything `renderRecord` places before the colorized severity label:
the optional cursor-up escape, the timestamp and a separator.  Contains no
color escape. -/
def renderBefore (ln : Bool) (now : String) : String :=
  (if ln then "\x1b[1A" else "") ++ now ++ " - "

/-- Everything `renderRecord` places after the colorized severity label:
separator, call site, separator, message, optional erase-line escape and the
conditional newline.  Contains no color escape. -/
def renderAfter (ln : Bool) (caller : Option (String × Int)) (s : String) : String :=
  " - " ++ (resolveCaller caller).1 ++ ":[" ++ toString (resolveCaller caller).2 ++
    "] - " ++ s ++ (if ln then "\x1b[K" else "") ++
    (if s.length = 0 ∨ s.back ≠ '\n' then "\n" else "")

/-- A concrete running logger with two queued records, used by witnesses. -/
def sampleQueued : LoggerState :=
  { level := LevelAll
    handlerKind := HandlerKind.stdout
    bufs := [⟨"", 1024⟩]
    msg := [⟨"rec-a", 1024⟩, ⟨"rec-b", 1024⟩]
    closed := false
    loopRunning := true
    writes := ["rec-0"]
    handlerClosed := false
    handlerCloseCount := 0
    quitCloseCount := 0 }

/-- A concrete logger accepting every severity, used by witnesses. -/
def sampleAll : LoggerState :=
  { New HandlerKind.stdout with level := LevelAll }

/-- A concrete process state whose default logger is fresh, used by witnesses. -/
def sampleGlobal : GlobalState :=
  { defLoger := New HandlerKind.stdout, retired := [] }

theorem drainFrom_fst (q : List GoSlice) : ∀ (w : List String) (b : List GoSlice),
    (Logger.drainFrom w b q).1 = w ++ q.map GoSlice.data := by
  induction q with
  | nil => intro w b; simp [Logger.drainFrom]
  | cons m rest ih => intro w b; simp [Logger.drainFrom, ih]

/-- C2: closing a logger with K records still queued makes the Handler
receive exactly those K records, in order, before `Close` returns; afterwards
the dispatch loop has exited and performs no further write. -/
theorem close_drain_exact (st : LoggerState) (h : st.closed = false) :
    (Logger.Close st).writes = st.writes ++ st.msg.map GoSlice.data ∧
    (Logger.Close st).msg = [] ∧
    (Logger.Close st).loopRunning = false ∧
    ∀ st' : LoggerState, st'.loopRunning = false → Logger.runStep st' = st' := by
  refine ⟨?_, ?_, ?_, ?_⟩
  · simp [Logger.Close, h, drainFrom_fst]
  · simp [Logger.Close, h]
  · simp [Logger.Close, h]
  · intro st' h'
    simp [Logger.runStep, h']

theorem close_drain_exact_witness :
    (Logger.Close sampleQueued).writes =
      sampleQueued.writes ++ sampleQueued.msg.map GoSlice.data ∧
    (Logger.Close sampleQueued).msg = [] :=
  ⟨(close_drain_exact sampleQueued rfl).1, (close_drain_exact sampleQueued rfl).2.1⟩

/-- C4: `Close` on an already-closed logger is a no-op changing no state,
and over any number of sequential `Close` calls on a live logger the Handler
is closed exactly once and the quit channel is closed exactly once. -/
theorem close_idempotent (st : LoggerState) (h : st.closed = false) :
    (Logger.Close st).closed = true ∧
    (∀ st' : LoggerState, st'.closed = true → Logger.Close st' = st') ∧
    ∀ n : Nat, 1 ≤ n →
      Logger.Close^[n] st = Logger.Close st ∧
      (Logger.Close^[n] st).handlerCloseCount = st.handlerCloseCount + 1 ∧
      (Logger.Close^[n] st).quitCloseCount = st.quitCloseCount + 1 := by
  have hclosed : (Logger.Close st).closed = true := by simp [Logger.Close, h]
  have hnoop : ∀ st' : LoggerState, st'.closed = true → Logger.Close st' = st' := by
    intro st' h'; simp [Logger.Close, h']
  have hiter : ∀ n : Nat, Logger.Close^[n + 1] st = Logger.Close st := by
    intro n
    induction n with
    | zero => simp
    | succ m ih => rw [Function.iterate_succ_apply', ih, hnoop _ hclosed]
  refine ⟨hclosed, hnoop, ?_⟩
  intro n hn
  obtain ⟨m, rfl⟩ : ∃ m, n = m + 1 := ⟨n - 1, by omega⟩
  refine ⟨hiter m, ?_, ?_⟩
  · rw [hiter m]; simp [Logger.Close, h]
  · rw [hiter m]; simp [Logger.Close, h]

theorem close_idempotent_witness :
    Logger.Close (Logger.Close sampleQueued) = Logger.Close sampleQueued ∧
    (Logger.Close^[2] sampleQueued).handlerCloseCount =
      sampleQueued.handlerCloseCount + 1 ∧
    (Logger.Close^[2] sampleQueued).quitCloseCount =
      sampleQueued.quitCloseCount + 1 :=
  ⟨(close_idempotent sampleQueued rfl).2.1 (Logger.Close sampleQueued)
      (close_idempotent sampleQueued rfl).1,
   ((close_idempotent sampleQueued rfl).2.2 2 (by decide)).2.1,
   ((close_idempotent sampleQueued rfl).2.2 2 (by decide)).2.2⟩

/-- C3: the free list holds at most 16 buffers, all of length zero, and this
invariant is preserved by `popBuf` and `putBuf`; `popBuf` always hands out a
zero-length buffer (a fresh one of capacity 1024 when the list is empty), and
`putBuf` truncates and retains the buffer exactly when fewer than 16 are
held, dropping it otherwise. -/
theorem bufPool_inv (bufs : List GoSlice) (buf : GoSlice) (h : PoolInv bufs) :
    PoolInv (popBuf bufs).2 ∧
    (popBuf bufs).1.data = "" ∧
    (bufs = [] → popBuf bufs = (⟨"", 1024⟩, [])) ∧
    PoolInv (putBuf bufs buf) ∧
    (bufs.length < maxBufPoolSize → putBuf bufs buf = bufs ++ [⟨"", buf.cap⟩]) ∧
    (¬bufs.length < maxBufPoolSize → putBuf bufs buf = bufs) := by
  obtain ⟨hlen, hdata⟩ := h
  refine ⟨?_, ?_, ?_, ⟨?_, ?_⟩, ?_, ?_⟩
  · cases hl : bufs.getLast? with
    | none => exact ⟨by simpa [popBuf, hl] using hlen, by simpa [popBuf, hl] using hdata⟩
    | some b =>
      refine ⟨?_, ?_⟩
      · have hd : bufs.dropLast.length ≤ bufs.length := by
          rw [List.length_dropLast]; omega
        simpa [popBuf, hl] using le_trans hd hlen
      · intro x hx
        simp only [popBuf, hl] at hx
        exact hdata x (List.dropLast_subset bufs hx)
  · cases hl : bufs.getLast? with
    | none => simp [popBuf, hl]
    | some b =>
      simp only [popBuf, hl]
      exact hdata b (List.mem_of_getLast?_eq_some hl)
  · intro he; subst he; simp [popBuf]
  · by_cases hc : bufs.length < maxBufPoolSize
    · simp only [putBuf, if_pos hc, List.length_append, List.length_cons,
        List.length_nil]
      omega
    · simpa only [putBuf, if_neg hc] using hlen
  · intro x hx
    by_cases hc : bufs.length < maxBufPoolSize
    · simp only [putBuf, if_pos hc] at hx
      rcases List.mem_append.1 hx with h1 | h2
      · exact hdata x h1
      · simp only [List.mem_singleton] at h2
        subst h2; rfl
    · simp only [putBuf, if_neg hc] at hx
      exact hdata x hx
  · intro hc; simp only [putBuf, if_pos hc]
  · intro hc; simp only [putBuf, if_neg hc]

theorem bufPool_inv_witness :
    PoolInv (popBuf [(⟨"", 10⟩ : GoSlice)]).2 ∧
    (popBuf [(⟨"", 10⟩ : GoSlice)]).1.data = "" ∧
    PoolInv (putBuf [(⟨"", 10⟩ : GoSlice)] ⟨"xyz", 4⟩) ∧
    putBuf [(⟨"", 10⟩ : GoSlice)] ⟨"xyz", 4⟩ = [⟨"", 10⟩, ⟨"", 4⟩] :=
  ⟨(bufPool_inv [⟨"", 10⟩] ⟨"xyz", 4⟩ (by decide)).1,
   (bufPool_inv [⟨"", 10⟩] ⟨"xyz", 4⟩ (by decide)).2.1,
   (bufPool_inv [⟨"", 10⟩] ⟨"xyz", 4⟩ (by decide)).2.2.2.1,
   ((bufPool_inv [⟨"", 10⟩] ⟨"xyz", 4⟩ (by decide)).2.2.2.2.1 (by decide)).trans
     (by decide)⟩

/-- C1: the emission path (`Output`, equal by definition to each of the
`Debug`/`Info`/`Warn`/`Error` wrappers at its severity) enqueues exactly one
record — hence exactly one Handler write once the queue is dispatched — when
`(level & severity) == severity`, and otherwise returns with the whole logger
state, pool and queue included, unchanged. -/
theorem output_emits_iff (st : LoggerState) (ln : Bool)
    (caller : Option (String × Int)) (now : String) (level : LogLever) (s : String) :
    (st.level &&& level = level →
      (Logger.Output st ln caller now level s).msg.length = st.msg.length + 1 ∧
      writesAfterDrain (Logger.Output st ln caller now level s) =
        writesAfterDrain st ++
          [(popBuf st.bufs).1.data ++ renderRecord ln now level caller s]) ∧
    (st.level &&& level ≠ level → Logger.Output st ln caller now level s = st) ∧
    Logger.Debug st caller now s = Logger.Output st false caller now LevelDebug s ∧
    Logger.Info st caller now s = Logger.Output st false caller now LevelInfo s ∧
    Logger.Warn st caller now s = Logger.Output st false caller now LevelWarn s ∧
    Logger.Error st caller now s = Logger.Output st false caller now LevelError s := by
  refine ⟨?_, ?_, rfl, rfl, rfl, rfl⟩
  · intro hp
    constructor
    · simp [Logger.Output, hp]
    · simp [Logger.Output, hp, writesAfterDrain]
  · intro hn
    unfold Logger.Output
    rw [if_pos hn]

theorem output_emits_iff_witness :
    (Logger.Output sampleAll false none "t" LevelInfo "m").msg.length =
      sampleAll.msg.length + 1 ∧
    Logger.Output (New HandlerKind.stdout) false none "t" LevelDebug "m" =
      New HandlerKind.stdout :=
  ⟨((output_emits_iff sampleAll false none "t" LevelInfo "m").1 (by decide)).1,
   (output_emits_iff (New HandlerKind.stdout) false none "t" LevelDebug "m").2.1
     (by decide)⟩

/-- C9: a logger built by `New` starts with level mask `LevelInfo = 1`, so it
emits Info records and filters Debug, Warn and Error records until `SetLevel`
changes the mask. -/
theorem new_level_info (k : HandlerKind) :
    (New k).level = LevelInfo ∧
    (∀ (caller : Option (String × Int)) (now s : String),
      (Logger.Info (New k) caller now s).msg.length = 1) ∧
    (∀ (caller : Option (String × Int)) (now s : String),
      Logger.Debug (New k) caller now s = New k) ∧
    (∀ (caller : Option (String × Int)) (now s : String),
      Logger.Warn (New k) caller now s = New k) ∧
    (∀ (caller : Option (String × Int)) (now s : String),
      Logger.Error (New k) caller now s = New k) := by
  have hl : (New k).level = LevelInfo := rfl
  refine ⟨rfl, ?_, ?_, ?_, ?_⟩
  · intro caller now s
    unfold Logger.Info Logger.Output
    rw [hl, if_neg (by decide)]
    simp [New]
  · intro caller now s
    unfold Logger.Debug Logger.Output
    rw [hl, if_pos (by decide)]
  · intro caller now s
    unfold Logger.Warn Logger.Output
    rw [hl, if_pos (by decide)]
  · intro caller now s
    unfold Logger.Error Logger.Output
    rw [hl, if_pos (by decide)]

/-- C10: `levelName` tests the Debug, Info, Warn, Error bits with bitwise AND
in that fixed order, so the first matching bit chooses the label (Debug wins
over Error in a combined mask) and a value matching none of the four bits
yields the empty label. -/
theorem levelName_priority (l : LogLever) :
    (l &&& LevelDebug = LevelDebug → levelName l = "DEBUG") ∧
    (l &&& LevelDebug ≠ LevelDebug → l &&& LevelInfo = LevelInfo →
      levelName l = "INFO") ∧
    (l &&& LevelDebug ≠ LevelDebug → l &&& LevelInfo ≠ LevelInfo →
      l &&& LevelWarn = LevelWarn → levelName l = "WARN") ∧
    (l &&& LevelDebug ≠ LevelDebug → l &&& LevelInfo ≠ LevelInfo →
      l &&& LevelWarn ≠ LevelWarn → l &&& LevelError = LevelError →
      levelName l = "ERROR") ∧
    (l &&& LevelDebug ≠ LevelDebug → l &&& LevelInfo ≠ LevelInfo →
      l &&& LevelWarn ≠ LevelWarn → l &&& LevelError ≠ LevelError →
      levelName l = "") ∧
    levelName (LevelDebug ||| LevelError) = "DEBUG" := by
  refine ⟨?_, ?_, ?_, ?_, ?_, by decide⟩ <;> intros <;> simp_all [levelName]

theorem levelName_priority_witness :
    levelName 2 = "DEBUG" ∧ levelName 1 = "INFO" ∧ levelName 4 = "WARN" ∧
    levelName 8 = "ERROR" ∧ levelName 16 = "" :=
  ⟨(levelName_priority 2).1 (by decide),
   (levelName_priority 1).2.1 (by decide) (by decide),
   (levelName_priority 4).2.2.1 (by decide) (by decide) (by decide),
   (levelName_priority 8).2.2.2.1 (by decide) (by decide) (by decide) (by decide),
   (levelName_priority 16).2.2.2.2.1 (by decide) (by decide) (by decide)
     (by decide)⟩

/-- C6: the color codes are a pure function of severity — Info green, Warn
yellow, Error red, Debug none — and in every rendered record they enclose
exactly the severity label: the part before (`renderBefore`) and after
(`renderAfter`) the colorized label mention no color function. -/
theorem colorize_label_only (ln : Bool) (now : String) (level : LogLever)
    (caller : Option (String × Int)) (s : String) :
    renderRecord ln now level caller s =
      renderBefore ln now ++
        (colorStart level ++ levelName level ++ colorStop level) ++
        renderAfter ln caller s ∧
    colorStart LevelInfo = GREEN ∧ colorStop LevelInfo = NONE ∧
    colorStart LevelWarn = YELLOW ∧ colorStop LevelWarn = NONE ∧
    colorStart LevelError = RED ∧ colorStop LevelError = NONE ∧
    colorStart LevelDebug = "" ∧ colorStop LevelDebug = "" := by
  refine ⟨?_, rfl, rfl, rfl, rfl, rfl, rfl, rfl, rfl⟩
  cases ln <;> by_cases hc : s.length = 0 ∨ s.back ≠ '\n' <;>
    simp [renderRecord, renderBefore, renderAfter, hc, String.append_assoc,
      String.append_empty, String.empty_append]

/-- C5 counterexample: a record rendered with the line-overwrite flag set
(the `DebugLine` path through `Output`) is not of the claimed shape — it
carries a leading cursor-up escape and an erase-line escape. -/
theorem render_shape_counterexample :
    renderRecord true "2020/01/02 03:04:05" LevelInfo (some ("/a/b.go", 7)) "hello" ≠
      renderSpec "2020/01/02 03:04:05" LevelInfo
        (resolveCaller (some ("/a/b.go", 7))).1
        (resolveCaller (some ("/a/b.go", 7))).2 "hello" := by decide

/-- C5 (amended): when the line-overwrite flag is unset — as in all the
Debug/Info/Warn/Error wrappers — the rendered record is exactly timestamp,
separator, colorized severity label, separator, `file:[line]`, separator,
message, and a trailing newline exactly when the message is empty or does not
end in a newline; when the flag is set, the same record is additionally
prefixed by the cursor-up escape and carries an erase-line escape between the
message and the newline rule. -/
theorem render_shape (now : String) (level : LogLever)
    (caller : Option (String × Int)) (s : String) :
    renderRecord false now level caller s =
      renderSpec now level (resolveCaller caller).1 (resolveCaller caller).2 s ∧
    renderRecord true now level caller s =
      "\x1b[1A" ++ now ++ " - " ++
        (colorStart level ++ levelName level ++ colorStop level) ++ " - " ++
        (resolveCaller caller).1 ++ ":[" ++ toString (resolveCaller caller).2 ++
        "] - " ++ s ++ "\x1b[K" ++
        (if s.length = 0 ∨ s.back ≠ '\n' then "\n" else "") := by
  constructor <;>
    by_cases hc : s.length = 0 ∨ s.back ≠ '\n' <;>
      simp [renderRecord, renderSpec, hc, String.append_assoc,
        String.append_empty, String.empty_append]

theorem stripDirAux_skip (cs : List Char) (i : Nat) (h : cs.get? (i + 1) ≠ some '/') :
    stripDirAux cs (i + 1) = stripDirAux cs i := by
  rw [show stripDirAux cs (i + 1) =
    if cs.get? (i + 1) = some '/' then cs.drop (i + 2) else stripDirAux cs i from rfl,
    if_neg h]

theorem stripDirAux_no_slash (cs : List Char) (m : Nat) : ∀ i : Nat,
    (∀ k, i < k → k ≤ i + m → cs.get? k ≠ some '/') →
    stripDirAux cs (i + m) = stripDirAux cs i := by
  induction m with
  | zero => intro i _; rfl
  | succ p ih =>
    intro i h
    have h1 : cs.get? (i + p + 1) ≠ some '/' := h (i + p + 1) (by omega) (by omega)
    rw [show i + (p + 1) = (i + p) + 1 from rfl, stripDirAux_skip cs (i + p) h1]
    exact ih i (fun k hk1 hk2 => h k hk1 (by omega))

theorem shortFile_append (xs ys : List Char) (hys : '/' ∉ ys) (hxs : xs ≠ []) :
    shortFile ⟨xs ++ '/' :: ys⟩ = ⟨ys⟩ := by
  show String.mk (stripDirAux (xs ++ '/' :: ys) ((xs ++ '/' :: ys).length - 1)) =
    String.mk ys
  have hlen : (xs ++ '/' :: ys).length - 1 = xs.length + ys.length := by
    simp [List.length_append]
  have hskip : stripDirAux (xs ++ '/' :: ys) (xs.length + ys.length) =
      stripDirAux (xs ++ '/' :: ys) xs.length := by
    apply stripDirAux_no_slash
    intro k hk1 hk2
    have hk : xs.length ≤ k := le_of_lt hk1
    rw [List.get?_append_right hk]
    have ht : k - xs.length = (k - xs.length - 1) + 1 := by omega
    rw [ht, show ('/' :: ys).get? (k - xs.length - 1 + 1) =
      ys.get? (k - xs.length - 1) from rfl]
    intro contra
    exact hys (List.get?_mem contra)
  have hget : (xs ++ '/' :: ys).get? xs.length = some '/' := by
    rw [List.get?_append_right (le_refl _)]
    simp
  obtain ⟨p, hp⟩ : ∃ p, xs.length = p + 1 :=
    ⟨xs.length - 1, by have := List.length_pos.mpr hxs; omega⟩
  have hstep : stripDirAux (xs ++ '/' :: ys) xs.length =
      (xs ++ '/' :: ys).drop (xs.length + 1) := by
    rw [hp] at hget ⊢
    rw [show stripDirAux (xs ++ '/' :: ys) (p + 1) =
      if (xs ++ '/' :: ys).get? (p + 1) = some '/' then (xs ++ '/' :: ys).drop (p + 2)
      else stripDirAux (xs ++ '/' :: ys) p from rfl, if_pos hget]
  have hdrop : (xs ++ '/' :: ys).drop (xs.length + 1) = ys := by
    rw [show xs ++ '/' :: ys = (xs ++ ['/']) ++ ys by simp,
      show xs.length + 1 = (xs ++ ['/']).length by simp, List.drop_left]
  rw [hlen, hskip, hstep, hdrop]

theorem shortFile_no_slash_tail (c : Char) (cs : List Char) (h : '/' ∉ cs) :
    shortFile ⟨c :: cs⟩ = ⟨c :: cs⟩ := by
  show String.mk (stripDirAux (c :: cs) ((c :: cs).length - 1)) = String.mk (c :: cs)
  have hlen : (c :: cs).length - 1 = 0 + cs.length := by simp
  rw [hlen, stripDirAux_no_slash]
  · rfl
  · intro k hk1 hk2
    have ht : k = (k - 1) + 1 := by omega
    rw [ht, show (c :: cs).get? (k - 1 + 1) = cs.get? (k - 1) from rfl]
    intro contra
    exact h (List.get?_mem contra)

theorem takeWhile_append_stop (p : Char → Bool) (l1 : List Char) (x : Char)
    (l2 : List Char) (h1 : ∀ a ∈ l1, p a = true) (h2 : p x = false) :
    (l1 ++ x :: l2).takeWhile p = l1 := by
  induction l1 with
  | nil => simp [List.takeWhile_cons, h2]
  | cons a t ih =>
    have ha : p a = true := h1 a (List.mem_cons_self a t)
    simp only [List.cons_append, List.takeWhile_cons, ha, if_true]
    rw [ih (fun b hb => h1 b (List.mem_cons_of_mem a hb))]

theorem afterLastSlash_append (xs ys : List Char) (hys : '/' ∉ ys) :
    afterLastSlash (xs ++ '/' :: ys) = ys := by
  unfold afterLastSlash
  rw [show (xs ++ '/' :: ys).reverse = ys.reverse ++ '/' :: xs.reverse by simp,
    takeWhile_append_stop _ _ _ _ ?_ (by simp), List.reverse_reverse]
  intro a ha
  have hm : a ∈ ys := List.mem_reverse.mp ha
  have hne : a ≠ '/' := fun contra => hys (contra ▸ hm)
  simpa using hne

/-- C7 counterexample: for the resolved path `"/main.go"`, whose only `'/'`
is its first character, the countdown loop (which never examines index 0)
leaves the path unchanged instead of producing the substring after the last
`'/'`. -/
theorem shortFile_counterexample :
    shortFile "/main.go" ≠ String.mk (afterLastSlash (String.data "/main.go")) := by
  decide

/-- C7 (amended): when the resolved path contains a `'/'` at a positive
index, the rendered file name is the substring after the last `'/'` (a path
whose only slash is the leading character is kept whole); when stack
resolution fails, the placeholder `"???"` with line 0 is used and the record
is still emitted. -/
theorem output_callsite :
    (∀ xs ys : List Char, '/' ∉ ys → xs ≠ [] →
      shortFile ⟨xs ++ '/' :: ys⟩ = ⟨ys⟩ ∧
      String.mk (afterLastSlash (xs ++ '/' :: ys)) = ⟨ys⟩) ∧
    (∀ (c : Char) (cs : List Char), '/' ∉ cs → shortFile ⟨c :: cs⟩ = ⟨c :: cs⟩) ∧
    resolveCaller none = ("???", 0) ∧
    (∀ (st : LoggerState) (ln : Bool) (now : String) (level : LogLever) (s : String),
      st.level &&& level = level →
      (Logger.Output st ln none now level s).msg.map GoSlice.data =
        st.msg.map GoSlice.data ++
          [(popBuf st.bufs).1.data ++ renderRecord ln now level none s]) := by
  refine ⟨?_, ?_, rfl, ?_⟩
  · intro xs ys hys hxs
    exact ⟨shortFile_append xs ys hys hxs,
      congrArg String.mk (afterLastSlash_append xs ys hys)⟩
  · exact shortFile_no_slash_tail
  · intro st ln now level s hp
    simp [Logger.Output, hp]

theorem output_callsite_witness :
    shortFile ⟨['a'] ++ '/' :: ['b', '.', 'g', 'o']⟩ = ⟨['b', '.', 'g', 'o']⟩ ∧
    shortFile ⟨'/' :: ['m', 'a', 'i', 'n']⟩ = ⟨'/' :: ['m', 'a', 'i', 'n']⟩ ∧
    (Logger.Output sampleAll false none "t" LevelInfo "m").msg.map GoSlice.data =
      sampleAll.msg.map GoSlice.data ++
        [(popBuf sampleAll.bufs).1.data ++ renderRecord false "t" LevelInfo none "m"] :=
  ⟨(output_callsite.1 ['a'] ['b', '.', 'g', 'o'] (by decide) (by decide)).1,
   output_callsite.2.1 '/' ['m', 'a', 'i', 'n'] (by decide),
   output_callsite.2.2.2 sampleAll false "t" LevelInfo "m" (by decide)⟩

/-- C8 counterexample: with a live stdout-backed default logger, a failing
rotating-handler construction for a non-empty file name leaves the default
logger closed — not a usable logger on a safe default sink. -/
theorem setLogFile_counterexample :
    ((SetLogFile sampleGlobal "a.log" false).defLoger).closed = true := by
  decide

/-- C8 (amended): `SetLogFile` closes the previous default logger first in
every case; when rotating-handler construction fails it returns early, so the
already-closed previous logger stays installed as the default (no fallback);
the stdout fallback sink is used exactly when the file name is empty, and
every freshly installed default logger is non-closed. -/
theorem setLogFile_replace (g : GlobalState) (logFile : String) (rotOk : Bool) :
    (g.defLoger.closed = false →
      (Logger.Close g.defLoger).handlerClosed = true ∧
      (Logger.Close g.defLoger).closed = true) ∧
    (logFile.length ≠ 0 → rotOk = false →
      SetLogFile g logFile rotOk =
        { defLoger := Logger.Close g.defLoger, retired := g.retired }) ∧
    (logFile.length ≠ 0 → rotOk = true →
      SetLogFile g logFile rotOk =
        { defLoger := New (HandlerKind.rotatingFile logFile),
          retired := g.retired ++ [Logger.Close g.defLoger] }) ∧
    (logFile.length = 0 →
      SetLogFile g logFile rotOk =
        { defLoger := New HandlerKind.stdout,
          retired := g.retired ++ [Logger.Close g.defLoger] }) ∧
    (∀ k : HandlerKind, (New k).closed = false) := by
  refine ⟨?_, ?_, ?_, ?_, fun _ => rfl⟩
  · intro h
    constructor <;> simp [Logger.Close, h]
  · intro hf hr
    simp [SetLogFile, hf, hr]
  · intro hf hr
    simp [SetLogFile, hf, hr]
  · intro hf
    simp [SetLogFile, hf]

theorem setLogFile_replace_witness :
    SetLogFile sampleGlobal "a.log" false =
      { defLoger := Logger.Close sampleGlobal.defLoger,
        retired := sampleGlobal.retired } ∧
    SetLogFile sampleGlobal "a.log" true =
      { defLoger := New (HandlerKind.rotatingFile "a.log"),
        retired := sampleGlobal.retired ++ [Logger.Close sampleGlobal.defLoger] } ∧
    SetLogFile sampleGlobal "" false =
      { defLoger := New HandlerKind.stdout,
        retired := sampleGlobal.retired ++ [Logger.Close sampleGlobal.defLoger] } ∧
    (Logger.Close sampleGlobal.defLoger).handlerClosed = true :=
  ⟨(setLogFile_replace sampleGlobal "a.log" false).2.1 (by decide) rfl,
   (setLogFile_replace sampleGlobal "a.log" true).2.2.1 (by decide) rfl,
   (setLogFile_replace sampleGlobal "" false).2.2.2.1 (by decide),
   ((setLogFile_replace sampleGlobal "" false).1 (by decide)).1⟩

end GoLog
